import Mathlib

/-!
Verification of the oolio-kart-challenge food-ordering backend: the order
pricing engine (`internal/domain/order`, `internal/domain/coupon`), the
legacy pricing path (`internal/coupon`, `internal/postgres`), the coupon
repository SQL (`internal/repository`), and the coupon discovery pipeline
(`cmd/seed-db`).

Monetary values (Go `decimal.Decimal`, arbitrary-precision base-10) are
embedded as rationals.  `decimal.Round(2)` rounds half away from zero to two
decimal places; `Div` rounds the quotient half away from zero at
`DivisionPrecision = 16` places.  Go `int` is embedded as `ℤ`, `time.Time`
as an integer timestamp, and fallible Go functions return `Except`.
-/

/-- `roundDp p x` rounds `x` to `p` decimal places, half away from zero:
the embedding of shopspring `decimal.Round(p)` (and, at `p = 16`, of the
rounding performed by `decimal.Div`). -/
def roundDp (p : ℕ) (x : ℚ) : ℚ :=
  if 0 ≤ x then ((⌊x * 10 ^ p + 1 / 2⌋ : ℤ) : ℚ) / 10 ^ p
  else -(((⌊(-x) * 10 ^ p + 1 / 2⌋ : ℤ) : ℚ) / 10 ^ p)

/-- `divByHundred x` embeds `d.Div(hundred)`: shopspring division rounds the
exact quotient to `DivisionPrecision = 16` decimal places, half away from
zero. -/
def divByHundred (x : ℚ) : ℚ := roundDp 16 (x / 100)

/-! ## Shared cart / discount types

Both Go coupon packages (`internal/domain/coupon` and the legacy
`internal/coupon`) declare identical `Item` and `Discount` types; they are
embedded once. -/

/-- A cart line item (`coupon.Item`): product id, unit price, quantity. -/
structure Item where
  productID : String
  price : ℚ
  quantity : ℤ
deriving DecidableEq, Repr

/-- A computed discount (`coupon.Discount`). -/
structure Discount where
  amount : ℚ
  description : String
deriving DecidableEq, Repr

/-- Errors surfaced by the coupon subsystem.  `invalidCoupon`,
`couponExpired` and `usageLimitReached` embed the three sentinel errors of
the domain package; `unsupportedType` embeds the `errors.Errorf`
"unsupported discount type" failure of `Apply`; `repoErr` embeds any wrapped
infrastructure error (only the wrapping message is kept). -/
inductive CouponErr where
  | invalidCoupon
  | couponExpired
  | usageLimitReached
  | unsupportedType (t : String)
  | repoErr (msg : String)
deriving DecidableEq, Repr

/-- Events issued against the store, recorded in order.  Used to reason
about when `IncrementUses` and the order `Create` are performed. -/
inductive StoreEvent where
  | incrementUses (code : String)
  | createOrder (id : String)
deriving DecidableEq, Repr

/-- A row of the `coupons` table (migration `001_schema.sql`). -/
structure CouponRow where
  code : String
  discountType : String
  value : ℚ
  minItems : ℤ
  description : String
  active : Bool
  validFrom : Option ℤ
  validUntil : Option ℤ
  maxUses : ℤ
  uses : ℤ
  maxDiscount : ℚ
deriving DecidableEq, Repr

namespace Coupon

/-! ## `internal/domain/coupon` — the rich pricing path -/

/-- `coupon.Rule` of `internal/domain/coupon`: discount behaviour plus
temporal, usage and cap fields.  `validFrom`/`validUntil` embed the nullable
`*time.Time` bounds; `maxDiscount` embeds the decimal cap column. -/
structure Rule where
  code : String
  discountType : String
  value : ℚ
  minItems : ℤ
  description : String
  validFrom : Option ℤ := none
  validUntil : Option ℤ := none
  maxUses : ℤ := 0
  uses : ℤ := 0
  maxDiscount : ℚ := 0
deriving DecidableEq, Repr

/-- `calcSubtotal`: sum of `price * quantity` across all items. -/
def calcSubtotal (items : List Item) : ℚ :=
  items.foldl (fun sum item => sum + item.price * item.quantity) 0

/-- `totalQuantity`: sum of quantities across all items. -/
def totalQuantity (items : List Item) : ℤ :=
  items.foldl (fun total item => total + item.quantity) 0

/-- `findLowestUnitPrice`: lowest unit price among the items, `0` when
empty. -/
def findLowestUnitPrice : List Item → ℚ
  | [] => 0
  | first :: rest =>
      rest.foldl (fun lowest item =>
        if item.price < lowest then item.price else lowest) first.price

/-- `floorAtZero`: clamps negative values to zero. -/
def floorAtZero (d : ℚ) : ℚ :=
  if d < 0 then 0 else d

/-- `applyPercentage`: `subtotal * value / 100`, floored at zero, rounded
to 2 decimal places. -/
def applyPercentage (rule : Rule) (subtotal : ℚ) : Discount :=
  { amount := roundDp 2 (floorAtZero (divByHundred (subtotal * rule.value)))
    description := rule.description }

/-- `applyFixed`: `min(value, subtotal)`, floored at zero, rounded to 2
decimal places. -/
def applyFixed (rule : Rule) (subtotal : ℚ) : Discount :=
  { amount := roundDp 2 (floorAtZero (min rule.value subtotal))
    description := rule.description }

/-- `applyFreeLowest`: the lowest unit price, floored at zero, rounded to 2
decimal places. -/
def applyFreeLowest (rule : Rule) (items : List Item) : Discount :=
  { amount := roundDp 2 (floorAtZero (findLowestUnitPrice items))
    description := rule.description }

/-- `Apply` (`internal/coupon/discount.go`, shared verbatim by the domain
package): minimum-item gate, then the kind-specific calculation. -/
def Apply (rule : Rule) (items : List Item) : Except CouponErr Discount :=
  if rule.minItems > 0 ∧ totalQuantity items < rule.minItems then
    .error .invalidCoupon
  else
    match rule.discountType with
    | "percentage" => .ok (applyPercentage rule (calcSubtotal items))
    | "fixed" => .ok (applyFixed rule (calcSubtotal items))
    | "free_lowest" => .ok (applyFreeLowest rule items)
    | t => .error (.unsupportedType t)

/-- `rule.ValidFrom != nil && now.Before(*rule.ValidFrom)`. -/
def beforeValidFrom (rule : Rule) (now : ℤ) : Bool :=
  match rule.validFrom with
  | some vf => decide (now < vf)
  | none => false

/-- `rule.ValidUntil != nil && now.After(*rule.ValidUntil)`. -/
def afterValidUntil (rule : Rule) (now : ℤ) : Bool :=
  match rule.validUntil with
  | some vu => decide (now > vu)
  | none => false

/-- Lookup-error mapping of `RepoValidator.Validate`: `ErrInvalidCoupon`
passes through, anything else is wrapped as "lookup coupon". -/
def wrapLookup : CouponErr → CouponErr
  | .invalidCoupon => .invalidCoupon
  | _ => .repoErr "lookup coupon"

/-- `RepoValidator.Validate` of `internal/domain/coupon`: temporal gate,
usage gate, `Apply`, then `IncrementUses` on success.  The repository is
abstracted by its lookup result `findResult` and by whether the increment
statement succeeds (`incrementOk`); the second component records the store
mutations issued, in order. -/
def validate (findResult : Except CouponErr Rule) (incrementOk : Bool)
    (now : ℤ) (code : String) (items : List Item) :
    Except CouponErr Discount × List StoreEvent :=
  match findResult with
  | .error e => (.error (wrapLookup e), [])
  | .ok rule =>
    if beforeValidFrom rule now then (.error .couponExpired, [])
    else if afterValidUntil rule now then (.error .couponExpired, [])
    else if rule.maxUses > 0 ∧ rule.uses ≥ rule.maxUses then
      (.error .usageLimitReached, [])
    else
      match Apply rule items with
      | .error e => (.error e, [])
      | .ok d =>
        if incrementOk then (.ok d, [.incrementUses code])
        else (.error (.repoErr "increment coupon uses"), [.incrementUses code])

end Coupon

namespace OrderSvc

/-! ## `internal/domain/order` — order placement -/

/-- `product.Product` (only the fields the pricing path reads). -/
structure Product where
  id : String
  name : String
  price : ℚ
deriving DecidableEq, Repr

/-- `order.OrderItem`: a requested line item. -/
structure OrderItem where
  productID : String
  quantity : ℤ
deriving DecidableEq, Repr

/-- `order.PlaceOrderRequest`. -/
structure PlaceOrderRequest where
  items : List OrderItem
  couponCode : String
deriving DecidableEq, Repr

/-- `order.Order`: the persisted order. -/
structure Order where
  id : String
  items : List OrderItem
  total : ℚ
  discounts : ℚ
  couponCode : String
deriving DecidableEq, Repr

/-- `order.PlaceOrderResult`. -/
structure PlaceOrderResult where
  order : Order
  products : List Product
deriving DecidableEq, Repr

/-- Failure modes of `Service.PlaceOrder`: the sentinel / typed validation
errors, coupon errors wrapped by "validate coupon", and the order-store
failure wrapped by "create order". -/
inductive OrderErr where
  | emptyItems
  | invalidQuantity (productID : String)
  | productNotFound (productID : String)
  | couponErr (e : CouponErr)
  | createOrderErr
deriving DecidableEq, Repr

/-- First item with non-positive quantity, if any (the validation loop of
`PlaceOrder` returns on the first offender). -/
def firstBadQuantity : List OrderItem → Option String
  | [] => none
  | item :: rest =>
      if item.quantity ≤ 0 then some item.productID else firstBadQuantity rest

/-- First requested product id absent from the product store, if any (the
lookup loop of `PlaceOrder` checks the fetched map in request order). -/
def firstMissing (store : String → Option Product) :
    List OrderItem → Option String
  | [] => none
  | item :: rest =>
      match store item.productID with
      | none => some item.productID
      | some _ => firstMissing store rest

/-- Unit price of a product id in the store (`productMap` lookup; only
evaluated on ids known to be present). -/
def priceOf (store : String → Option Product) (pid : String) : ℚ :=
  match store pid with
  | some p => p.price
  | none => 0

/-- The `coupon.Item` built for a requested line item. -/
def toCouponItem (store : String → Option Product) (item : OrderItem) : Item :=
  { productID := item.productID
    price := priceOf store item.productID
    quantity := item.quantity }

/-- The subtotal accumulated by `PlaceOrder`: `Σ price · quantity` over the
composed coupon items. -/
def orderSubtotal (store : String → Option Product)
    (items : List OrderItem) : ℚ :=
  (items.map (toCouponItem store)).foldl
    (fun sum item => sum + item.price * item.quantity) 0

/-- `Service.PlaceOrder`: empty-items check, per-item quantity check,
batch product fetch with per-item presence check, subtotal, optional coupon
validation, total computation, order persistence.  The product store is the
`id → product` map induced by `GetByIDs`; `findResult`, `incrementOk`,
`now` abstract the coupon repository and clock; `createOk` abstracts the
order store; `newOrderID` abstracts `uuid.New()`.  The second component
records the store mutations issued, in order. -/
def placeOrder (store : String → Option Product)
    (findResult : Except CouponErr Coupon.Rule) (now : ℤ)
    (incrementOk : Bool) (createOk : Bool) (newOrderID : String)
    (req : PlaceOrderRequest) :
    Except OrderErr PlaceOrderResult × List StoreEvent :=
  if req.items = [] then (.error .emptyItems, [])
  else
    match firstBadQuantity req.items with
    | some pid => (.error (.invalidQuantity pid), [])
    | none =>
      match firstMissing store req.items with
      | some pid => (.error (.productNotFound pid), [])
      | none =>
        let couponItems := req.items.map (toCouponItem store)
        let subtotal := orderSubtotal store req.items
        let couponStep :
            Except CouponErr ℚ × List StoreEvent :=
          if req.couponCode ≠ "" then
            match Coupon.validate findResult incrementOk now
                req.couponCode couponItems with
            | (.ok d, evs) => (.ok d.amount, evs)
            | (.error e, evs) => (.error e, evs)
          else (.ok 0, [])
        match couponStep with
        | (.error e, evs) => (.error (.couponErr e), evs)
        | (.ok discountAmount, evs) =>
          let diff := subtotal - discountAmount
          let total := roundDp 2 (if diff < 0 then 0 else diff)
          let o : Order :=
            { id := newOrderID
              items := req.items
              total := total
              discounts := roundDp 2 discountAmount
              couponCode := req.couponCode }
          if createOk then
            (.ok { order := o
                   products := req.items.filterMap
                     (fun item => store item.productID) },
             evs ++ [.createOrder newOrderID])
          else (.error .createOrderErr, evs ++ [.createOrder newOrderID])

end OrderSvc

namespace SimpleCoupon

/-! ## `internal/coupon` — the legacy pricing path

The legacy package declares a `Rule` without temporal bounds, usage
counters or discount cap, a `Repository` interface with only `FindByCode`,
and a `RepoValidator` without gates.  Its `Item`, `Discount` and arithmetic
helpers are the shared ones above. -/

/-- `coupon.Rule` of `internal/coupon`: no `ValidFrom`/`ValidUntil`,
`MaxUses`, `Uses` or `MaxDiscount` fields exist on this type. -/
structure Rule where
  code : String
  discountType : String
  value : ℚ
  minItems : ℤ
  description : String
deriving DecidableEq, Repr

/-- `Apply` of `internal/coupon/discount.go`: minimum-item gate, then the
kind-specific calculation (same body as the domain `Apply`, over the
field-poor `Rule`). -/
def Apply (rule : Rule) (items : List Item) : Except CouponErr Discount :=
  if rule.minItems > 0 ∧ Coupon.totalQuantity items < rule.minItems then
    .error .invalidCoupon
  else
    match rule.discountType with
    | "percentage" =>
        .ok { amount := roundDp 2 (Coupon.floorAtZero
                (divByHundred (Coupon.calcSubtotal items * rule.value)))
              description := rule.description }
    | "fixed" =>
        .ok { amount := roundDp 2 (Coupon.floorAtZero
                (min rule.value (Coupon.calcSubtotal items)))
              description := rule.description }
    | "free_lowest" =>
        .ok { amount := roundDp 2 (Coupon.floorAtZero
                (Coupon.findLowestUnitPrice items))
              description := rule.description }
    | t => .error (.unsupportedType t)

/-- `mapCouponRule` of `internal/postgres/coupon.go`: maps a fetched coupon
row into the legacy `Rule`, keeping only code, type, value, min-items and
description. -/
def mapCouponRule (row : CouponRow) : Rule :=
  { code := row.code
    discountType := row.discountType
    value := row.value
    minItems := row.minItems
    description := row.description }

/-- `RepoValidator.Validate` of `internal/coupon`: lookup, then `Apply`.
There is no clock, no gate and no `IncrementUses` call; the second
component records the store mutations issued (none on any path). -/
def validate (findResult : Except CouponErr Rule) (items : List Item) :
    Except CouponErr Discount × List StoreEvent :=
  match findResult with
  | .error e => (.error (Coupon.wrapLookup e), [])
  | .ok rule =>
    match Apply rule items with
    | .error e => (.error e, [])
    | .ok d => (.ok d, [])

end SimpleCoupon

namespace Repo

/-! ## `internal/repository` — the coupon repository SQL

`FindByCode` runs `SELECT ... FROM coupons WHERE UPPER(code) = UPPER($1)
AND active = TRUE` collected with `CollectExactlyOneRow`; `IncrementUses`
runs `UPDATE coupons SET uses = uses + 1 WHERE code = $1` and reports
success regardless of how many rows matched.  The table is embedded as a
list of rows. -/

/-- SQL `UPPER` on the ASCII coupon codes (`String.map Char.toUpper`,
written over the character list). -/
def upperStr (s : String) : String := ⟨s.data.map Char.toUpper⟩

/-- `scanCouponRule`: a fetched row as a domain `coupon.Rule`. -/
def scanCouponRule (row : CouponRow) : Coupon.Rule :=
  { code := row.code
    discountType := row.discountType
    value := row.value
    minItems := row.minItems
    description := row.description
    validFrom := row.validFrom
    validUntil := row.validUntil
    maxUses := row.maxUses
    uses := row.uses
    maxDiscount := row.maxDiscount }

/-- `CouponRepository.FindByCode`: case-insensitive match on active rows;
no row yields `ErrInvalidCoupon`, more than one row is a collect error. -/
def findByCode (db : List CouponRow) (code : String) :
    Except CouponErr Coupon.Rule :=
  match db.filter (fun r => upperStr r.code == upperStr code && r.active) with
  | [row] => .ok (scanCouponRule row)
  | [] => .error .invalidCoupon
  | _ => .error (.repoErr "expected one row")

/-- `CouponRepository.IncrementUses`: the updated table.  The `WHERE`
clause compares the stored code to the parameter exactly (no `UPPER`), and
the statement succeeds even when zero rows match. -/
def incrementUses (db : List CouponRow) (code : String) : List CouponRow :=
  db.map (fun r => if r.code = code then { r with uses := r.uses + 1 } else r)

end Repo

namespace Pipeline

/-! ## `cmd/seed-db` — the coupon discovery pipeline

Pass 2 and the merge of `findValidCodes`, over abstract per-file filters:
a bloom filter is any `String → Bool` (pass 1 guarantees no false
negatives, but no property of the filters is needed for the soundness
claims proved here). -/

/-- `minCodeLen = 8`. -/
def minCodeLen : ℕ := 8

/-- `maxCodeLen = 10`. -/
def maxCodeLen : ℕ := 10

/-- The length gate applied in both passes:
`len(code) >= minCodeLen && len(code) <= maxCodeLen`. -/
def qualifies (code : String) : Bool :=
  minCodeLen ≤ code.length && code.length ≤ maxCodeLen

/-- The probe loop of `findCandidatesInFile`: some *other* file's filter
reports the code (the Go loop breaks on the first hit). -/
def hasOtherFileHit (filters : Fin 3 → String → Bool) (idx : Fin 3)
    (code : String) : Bool :=
  (List.finRange 3).any (fun j => j != idx && filters j code)

/-- The candidate map built by `findCandidatesInFile` for file `idx`
(every stored mask is `1 <<< idx`, so the map is just its key set): the
qualifying lines of the file with at least one other-file filter hit. -/
def candidateSet (filters : Fin 3 → String → Bool) (idx : Fin 3)
    (lines : List String) : List String :=
  lines.filter (fun code => qualifies code && hasOtherFileHit filters idx code)

/-- The merge step of `findValidCodes`: bitwise OR of the per-file masks
for a code (`merged[code] |= mask`). -/
def mergedMask (filters : Fin 3 → String → Bool)
    (files : Fin 3 → List String) (code : String) : ℕ :=
  (List.finRange 3).foldl
    (fun mask i =>
      if code ∈ candidateSet filters i (files i) then mask ||| (1 <<< i.val)
      else mask) 0

/-- Binary digit sum with structural fuel; the recursion halves its
argument, so fuel `n` always suffices for input `n`. -/
def popCountGo : ℕ → ℕ → ℕ
  | _, 0 => 0
  | 0, _ + 1 => 0
  | fuel + 1, m + 1 => (m + 1) % 2 + popCountGo fuel ((m + 1) / 2)

/-- `bits.OnesCount`: the number of one bits. -/
def popCount (n : ℕ) : ℕ := popCountGo n n

/-- The final keep test of `findValidCodes`: a code is confirmed when the
merged mask has popcount ≥ 2. -/
def confirmed (filters : Fin 3 → String → Bool)
    (files : Fin 3 → List String) (code : String) : Bool :=
  2 ≤ popCount (mergedMask filters files code)

end Pipeline

/-! ## Concrete fixtures used to evaluate the model -/

/-- A one-row `coupons` table holding the seeded HAPPYHRS coupon. -/
def happyHrsTable : List CouponRow :=
  [{ code := "HAPPYHRS", discountType := "percentage", value := 18,
     minItems := 0, description := "Happy Hours: 18% off", active := true,
     validFrom := none, validUntil := none, maxUses := 0, uses := 0,
     maxDiscount := 0 }]

/-! ## Rounding lemmas -/

theorem roundDp_zero (p : ℕ) : roundDp p 0 = 0 := by
  have h : ⌊(0 : ℚ) * 10 ^ p + 1 / 2⌋ = 0 := by
    rw [Int.floor_eq_iff]
    norm_num
  rw [roundDp, if_pos le_rfl, h]
  norm_num

theorem roundDp_nonneg (p : ℕ) {x : ℚ} (hx : 0 ≤ x) : 0 ≤ roundDp p x := by
  rw [roundDp, if_pos hx]
  apply div_nonneg _ (by positivity)
  have h : (0 : ℤ) ≤ ⌊x * 10 ^ p + 1 / 2⌋ := by
    apply Int.floor_nonneg.mpr
    have : (0 : ℚ) ≤ x * 10 ^ p := by positivity
    linarith
  exact_mod_cast h

theorem roundDp_mono (p : ℕ) {x y : ℚ} (hxy : x ≤ y) :
    roundDp p x ≤ roundDp p y := by
  rcases le_or_lt 0 x with hx | hx
  · have hy : 0 ≤ y := le_trans hx hxy
    rw [roundDp, if_pos hx, roundDp, if_pos hy]
    apply div_le_div_of_nonneg_right _ (by positivity)
    have h : ⌊x * 10 ^ p + 1 / 2⌋ ≤ ⌊y * 10 ^ p + 1 / 2⌋ := by
      apply Int.floor_le_floor
      have : x * 10 ^ p ≤ y * 10 ^ p := by
        apply mul_le_mul_of_nonneg_right hxy (by positivity)
      linarith
    exact_mod_cast h
  · rcases le_or_lt 0 y with hy | hy
    · calc roundDp p x ≤ 0 := by
            rw [roundDp, if_neg (not_le.mpr hx)]
            apply neg_nonpos_of_nonneg
            apply div_nonneg _ (by positivity)
            have h : (0 : ℤ) ≤ ⌊(-x) * 10 ^ p + 1 / 2⌋ := by
              apply Int.floor_nonneg.mpr
              have : (0 : ℚ) ≤ (-x) * 10 ^ p := by
                apply mul_nonneg (by linarith) (by positivity)
              linarith
            exact_mod_cast h
        _ ≤ roundDp p y := roundDp_nonneg p hy
    · rw [roundDp, if_neg (not_le.mpr hx), roundDp, if_neg (not_le.mpr hy)]
      apply neg_le_neg
      apply div_le_div_of_nonneg_right _ (by positivity)
      have h : ⌊(-y) * 10 ^ p + 1 / 2⌋ ≤ ⌊(-x) * 10 ^ p + 1 / 2⌋ := by
        apply Int.floor_le_floor
        have : (-y) * 10 ^ p ≤ (-x) * 10 ^ p := by
          apply mul_le_mul_of_nonneg_right (by linarith) (by positivity)
        linarith
      exact_mod_cast h

/-- A value that is a whole multiple of `10^-p` is fixed by `roundDp p`. -/
theorem roundDp_eq_self (p : ℕ) {x : ℚ} {n : ℤ} (h : x * 10 ^ p = n) :
    roundDp p x = x := by
  have hten : (0 : ℚ) < 10 ^ p := by positivity
  rcases le_or_lt 0 x with hx | hx
  · rw [roundDp, if_pos hx, h]
    have hfl : ⌊(n : ℚ) + 1 / 2⌋ = n := by
      rw [Int.floor_eq_iff]
      constructor <;> linarith
    rw [hfl]
    field_simp
    linarith [h.symm]
  · rw [roundDp, if_neg (not_le.mpr hx)]
    have h' : (-x) * 10 ^ p = ((-n : ℤ) : ℚ) := by push_cast; linarith [h]
    rw [h']
    have hfl : ⌊((-n : ℤ) : ℚ) + 1 / 2⌋ = -n := by
      rw [Int.floor_eq_iff]
      constructor <;> push_cast <;> linarith
    rw [hfl]
    have hnx : ((-n : ℤ) : ℚ) = -x * 10 ^ p := h'.symm
    push_cast at hnx
    field_simp
    linarith

/-! ## Discount calculation lemmas -/

theorem floorAtZero_nonneg (d : ℚ) : 0 ≤ Coupon.floorAtZero d := by
  unfold Coupon.floorAtZero
  split <;> linarith

theorem floorAtZero_of_nonneg {d : ℚ} (h : 0 ≤ d) :
    Coupon.floorAtZero d = d := by
  unfold Coupon.floorAtZero
  rw [if_neg (not_lt.mpr h)]

/-- Every discount produced by the domain `Apply` is non-negative. -/
theorem Apply_amount_nonneg {rule : Coupon.Rule} {items : List Item}
    {d : Discount} (h : Coupon.Apply rule items = .ok d) : 0 ≤ d.amount := by
  unfold Coupon.Apply at h
  split at h
  · exact absurd h (by simp)
  · split at h <;>
      first
      | (injection h with h; subst h;
         exact roundDp_nonneg 2 (floorAtZero_nonneg _))
      | exact absurd h (by simp)

/-- The domain `Apply` fails only with `invalidCoupon` (minimum-item gate)
or `unsupportedType`. -/
theorem Apply_error_cases {rule : Coupon.Rule} {items : List Item}
    {e : CouponErr} (h : Coupon.Apply rule items = .error e) :
    e = .invalidCoupon ∨ ∃ t, e = .unsupportedType t := by
  unfold Coupon.Apply at h
  split at h
  · left; injection h with h; exact h.symm
  · split at h
    · exact absurd h (by simp)
    · exact absurd h (by simp)
    · exact absurd h (by simp)
    · right; injection h with h; exact ⟨_, h.symm⟩

/-! ## Validator characterization lemmas -/

theorem validate_expired {rule : Coupon.Rule} {inc : Bool} {now : ℤ}
    {code : String} {items : List Item}
    (hb : (Coupon.beforeValidFrom rule now || Coupon.afterValidUntil rule now)
      = true) :
    Coupon.validate (.ok rule) inc now code items =
      (.error .couponExpired, []) := by
  unfold Coupon.validate
  rcases Bool.or_eq_true_iff.mp hb with h | h <;> simp [h]

theorem validate_usage {rule : Coupon.Rule} {inc : Bool} {now : ℤ}
    {code : String} {items : List Item}
    (hb : (Coupon.beforeValidFrom rule now || Coupon.afterValidUntil rule now)
      = false)
    (hu : rule.maxUses > 0 ∧ rule.uses ≥ rule.maxUses) :
    Coupon.validate (.ok rule) inc now code items =
      (.error .usageLimitReached, []) := by
  rcases Bool.or_eq_false_iff.mp hb with ⟨h1, h2⟩
  unfold Coupon.validate
  simp [h1, h2, hu]

theorem validate_apply_error {rule : Coupon.Rule} {inc : Bool} {now : ℤ}
    {code : String} {items : List Item} {e : CouponErr}
    (hb : (Coupon.beforeValidFrom rule now || Coupon.afterValidUntil rule now)
      = false)
    (hu : ¬(rule.maxUses > 0 ∧ rule.uses ≥ rule.maxUses))
    (ha : Coupon.Apply rule items = .error e) :
    Coupon.validate (.ok rule) inc now code items = (.error e, []) := by
  rcases Bool.or_eq_false_iff.mp hb with ⟨h1, h2⟩
  unfold Coupon.validate
  simp [h1, h2, hu, ha]

theorem validate_apply_ok {rule : Coupon.Rule} {now : ℤ}
    {code : String} {items : List Item} {d : Discount}
    (hb : (Coupon.beforeValidFrom rule now || Coupon.afterValidUntil rule now)
      = false)
    (hu : ¬(rule.maxUses > 0 ∧ rule.uses ≥ rule.maxUses))
    (ha : Coupon.Apply rule items = .ok d) :
    Coupon.validate (.ok rule) true now code items =
      (.ok d, [.incrementUses code]) := by
  rcases Bool.or_eq_false_iff.mp hb with ⟨h1, h2⟩
  unfold Coupon.validate
  simp [h1, h2, hu, ha]

theorem validate_increment_fail {rule : Coupon.Rule} {now : ℤ}
    {code : String} {items : List Item} {d : Discount}
    (hb : (Coupon.beforeValidFrom rule now || Coupon.afterValidUntil rule now)
      = false)
    (hu : ¬(rule.maxUses > 0 ∧ rule.uses ≥ rule.maxUses))
    (ha : Coupon.Apply rule items = .ok d) :
    Coupon.validate (.ok rule) false now code items =
      (.error (.repoErr "increment coupon uses"), [.incrementUses code]) := by
  rcases Bool.or_eq_false_iff.mp hb with ⟨h1, h2⟩
  unfold Coupon.validate
  simp [h1, h2, hu, ha]

theorem validate_lookup_fail {e : CouponErr} {inc : Bool} {now : ℤ}
    {code : String} {items : List Item} :
    Coupon.validate (.error e) inc now code items =
      (.error (Coupon.wrapLookup e), []) := rfl

/-- A successful `Validate` issued exactly one `IncrementUses`, and its
discount is the one computed by `Apply` on the looked-up rule. -/
theorem validate_ok_inv {fr : Except CouponErr Coupon.Rule} {inc : Bool}
    {now : ℤ} {code : String} {items : List Item} {d : Discount}
    {evs : List StoreEvent}
    (h : Coupon.validate fr inc now code items = (.ok d, evs)) :
    evs = [.incrementUses code] ∧
      ∃ rule, fr = .ok rule ∧ Coupon.Apply rule items = .ok d := by
  cases fr with
  | error e =>
    rw [validate_lookup_fail] at h
    exact absurd h (by simp)
  | ok rule =>
    cases hb : (Coupon.beforeValidFrom rule now ||
        Coupon.afterValidUntil rule now) with
    | true =>
      rw [validate_expired hb] at h
      exact absurd h (by simp)
    | false =>
      by_cases hu : rule.maxUses > 0 ∧ rule.uses ≥ rule.maxUses
      · rw [validate_usage hb hu] at h
        exact absurd h (by simp)
      · cases ha : Coupon.Apply rule items with
        | error e =>
          rw [validate_apply_error hb hu ha] at h
          exact absurd h (by simp)
        | ok d' =>
          cases inc with
          | false =>
            rw [validate_increment_fail hb hu ha] at h
            exact absurd h (by simp)
          | true =>
            rw [validate_apply_ok hb hu ha] at h
            simp only [Prod.mk.injEq] at h
            obtain ⟨h1, h2⟩ := h
            injection h1 with h1
            exact ⟨h2.symm, rule, rfl, h1 ▸ ha⟩

/-! ## Order validation loop lemmas -/

theorem firstBadQuantity_none {l : List OrderSvc.OrderItem}
    (h : ∀ i ∈ l, 0 < i.quantity) : OrderSvc.firstBadQuantity l = none := by
  induction l with
  | nil => rfl
  | cons x xs ih =>
    have hx := h x (List.mem_cons_self x xs)
    unfold OrderSvc.firstBadQuantity
    rw [if_neg (by omega)]
    exact ih fun i hi => h i (List.mem_cons_of_mem x hi)

theorem firstBadQuantity_none_inv {l : List OrderSvc.OrderItem}
    (h : OrderSvc.firstBadQuantity l = none) : ∀ i ∈ l, 0 < i.quantity := by
  induction l with
  | nil => intro i hi; exact absurd hi (List.not_mem_nil i)
  | cons x xs ih =>
    unfold OrderSvc.firstBadQuantity at h
    intro i hi
    by_cases hx : x.quantity ≤ 0
    · rw [if_pos hx] at h; exact absurd h (by simp)
    · rw [if_neg hx] at h
      rcases List.mem_cons.mp hi with rfl | hi'
      · omega
      · exact ih h i hi'

theorem firstBadQuantity_some_of {l : List OrderSvc.OrderItem}
    (h : ∃ i ∈ l, i.quantity ≤ 0) :
    ∃ pid, OrderSvc.firstBadQuantity l = some pid ∧
      ∃ i ∈ l, i.productID = pid ∧ i.quantity ≤ 0 := by
  induction l with
  | nil => rcases h with ⟨i, hi, _⟩; exact absurd hi (List.not_mem_nil i)
  | cons x xs ih =>
    by_cases hx : x.quantity ≤ 0
    · refine ⟨x.productID, ?_, x, List.mem_cons_self x xs, rfl, hx⟩
      unfold OrderSvc.firstBadQuantity
      rw [if_pos hx]
    · rcases h with ⟨i, hi, hq⟩
      rcases List.mem_cons.mp hi with rfl | hi'
      · exact absurd hq hx
      · rcases ih ⟨i, hi', hq⟩ with ⟨pid, hfst, j, hj, hpid, hjq⟩
        refine ⟨pid, ?_, j, List.mem_cons_of_mem x hj, hpid, hjq⟩
        unfold OrderSvc.firstBadQuantity
        rw [if_neg hx]
        exact hfst

theorem firstMissing_none_inv {store : String → Option OrderSvc.Product}
    {l : List OrderSvc.OrderItem}
    (h : OrderSvc.firstMissing store l = none) :
    ∀ i ∈ l, ∃ p, store i.productID = some p := by
  induction l with
  | nil => intro i hi; exact absurd hi (List.not_mem_nil i)
  | cons x xs ih =>
    unfold OrderSvc.firstMissing at h
    intro i hi
    rcases List.mem_cons.mp hi with rfl | hi'
    · cases hs : store i.productID with
      | none => rw [hs] at h; exact absurd h (by simp)
      | some p => exact ⟨p, rfl⟩
    · cases hs : store x.productID with
      | none => rw [hs] at h; exact absurd h (by simp)
      | some p => rw [hs] at h; exact ih h i hi'

theorem firstMissing_some_of {store : String → Option OrderSvc.Product}
    {l : List OrderSvc.OrderItem}
    (h : ∃ i ∈ l, store i.productID = none) :
    ∃ pid, OrderSvc.firstMissing store l = some pid ∧
      ∃ i ∈ l, i.productID = pid ∧ store pid = none := by
  induction l with
  | nil => rcases h with ⟨i, hi, _⟩; exact absurd hi (List.not_mem_nil i)
  | cons x xs ih =>
    cases hs : store x.productID with
    | none =>
      refine ⟨x.productID, ?_, x, List.mem_cons_self x xs, rfl, hs⟩
      unfold OrderSvc.firstMissing
      rw [hs]
    | some p =>
      rcases h with ⟨i, hi, hmiss⟩
      rcases List.mem_cons.mp hi with rfl | hi'
      · rw [hs] at hmiss; exact absurd hmiss (by simp)
      · rcases ih ⟨i, hi', hmiss⟩ with ⟨pid, hfst, j, hj, hpid, hjm⟩
        refine ⟨pid, ?_, j, List.mem_cons_of_mem x hj, hpid, hjm⟩
        unfold OrderSvc.firstMissing
        rw [hs]
        exact hfst

/-- The subtotal accumulator stays non-negative when every line value is
non-negative. -/
theorem foldl_line_nonneg (l : List Item)
    (h : ∀ i ∈ l, 0 ≤ i.price * (i.quantity : ℚ)) :
    ∀ a : ℚ, 0 ≤ a →
      0 ≤ l.foldl (fun sum item => sum + item.price * (item.quantity : ℚ)) a := by
  induction l with
  | nil => intro a ha; simpa using ha
  | cons x xs ih =>
    intro a ha
    have hx := h x (List.mem_cons_self x xs)
    exact ih (fun i hi => h i (List.mem_cons_of_mem x hi)) (a + _) (by linarith)

theorem priceOf_nonneg {store : String → Option OrderSvc.Product}
    (hstore : ∀ pid p, store pid = some p → 0 ≤ p.price) (pid : String) :
    0 ≤ OrderSvc.priceOf store pid := by
  unfold OrderSvc.priceOf
  cases hs : store pid with
  | none => norm_num
  | some p => exact hstore pid p hs

/-- The subtotal computed by `PlaceOrder` is non-negative whenever the
store prices are non-negative and all requested quantities are positive. -/
theorem orderSubtotal_nonneg {store : String → Option OrderSvc.Product}
    {items : List OrderSvc.OrderItem}
    (hstore : ∀ pid p, store pid = some p → 0 ≤ p.price)
    (hqty : ∀ i ∈ items, 0 < i.quantity) :
    0 ≤ OrderSvc.orderSubtotal store items := by
  unfold OrderSvc.orderSubtotal
  apply foldl_line_nonneg _ _ 0 le_rfl
  intro i hi
  rcases List.mem_map.mp hi with ⟨j, hj, rfl⟩
  unfold OrderSvc.toCouponItem
  have hq := hqty j hj
  have hp := priceOf_nonneg hstore j.productID
  have : (0 : ℚ) ≤ (j.quantity : ℚ) := by exact_mod_cast le_of_lt hq
  exact mul_nonneg hp this

/-- Inversion of a successful `PlaceOrder`: the request passed all checks,
the order was persisted, and total/discounts are the rounded values
computed from the subtotal and the (possibly zero) coupon discount. -/
theorem placeOrder_ok_inv {store : String → Option OrderSvc.Product}
    {findResult : Except CouponErr Coupon.Rule} {now : ℤ}
    {incOk createOk : Bool} {newID : String}
    {req : OrderSvc.PlaceOrderRequest} {res : OrderSvc.PlaceOrderResult}
    {evs : List StoreEvent}
    (h : OrderSvc.placeOrder store findResult now incOk createOk newID req
      = (.ok res, evs)) :
    req.items ≠ [] ∧
    OrderSvc.firstBadQuantity req.items = none ∧
    OrderSvc.firstMissing store req.items = none ∧
    createOk = true ∧
    ∃ d : ℚ,
      res.order.total = roundDp 2
        (if OrderSvc.orderSubtotal store req.items - d < 0 then 0
         else OrderSvc.orderSubtotal store req.items - d) ∧
      res.order.discounts = roundDp 2 d ∧
      res.order.id = newID ∧
      ((req.couponCode = "" ∧ d = 0 ∧ evs = [.createOrder newID]) ∨
       (req.couponCode ≠ "" ∧
        ∃ disc, Coupon.validate findResult incOk now req.couponCode
            (req.items.map (OrderSvc.toCouponItem store))
          = (.ok disc, [.incrementUses req.couponCode]) ∧
        d = disc.amount ∧
        evs = [.incrementUses req.couponCode, .createOrder newID])) := by
  unfold OrderSvc.placeOrder at h
  by_cases hne : req.items = []
  · rw [if_pos hne] at h
    exact absurd h (by simp)
  · rw [if_neg hne] at h
    cases hbad : OrderSvc.firstBadQuantity req.items with
    | some pid => rw [hbad] at h; exact absurd h (by simp)
    | none =>
      rw [hbad] at h
      cases hmiss : OrderSvc.firstMissing store req.items with
      | some pid => rw [hmiss] at h; exact absurd h (by simp)
      | none =>
        rw [hmiss] at h
        refine ⟨hne, rfl, rfl, ?_⟩
        by_cases hc : req.couponCode = ""
        · simp only [hc, ne_eq, not_true_eq_false, if_false, ite_false] at h
          cases hcreate : createOk with
          | false =>
            rw [hcreate] at h
            exact absurd h (by simp)
          | true =>
            rw [hcreate] at h
            simp only [if_true, Prod.mk.injEq] at h
            obtain ⟨h1, h2⟩ := h
            injection h1 with h1
            refine ⟨rfl, 0, ?_⟩
            subst h1
            refine ⟨rfl, rfl, rfl, Or.inl ⟨hc, rfl, ?_⟩⟩
            simpa using h2.symm
        · simp only [hc, ne_eq, not_false_eq_true, if_true, ite_true] at h
          cases hv : Coupon.validate findResult incOk now req.couponCode
              (req.items.map (OrderSvc.toCouponItem store)) with
          | mk vres vevs =>
            rw [hv] at h
            cases vres with
            | error e => exact absurd h (by simp)
            | ok disc =>
              have hvevs : vevs = [.incrementUses req.couponCode] :=
                (validate_ok_inv hv).1
              cases hcreate : createOk with
              | false =>
                rw [hcreate] at h
                exact absurd h (by simp)
              | true =>
                rw [hcreate] at h
                simp only [if_true, Prod.mk.injEq] at h
                obtain ⟨h1, h2⟩ := h
                injection h1 with h1
                refine ⟨rfl, disc.amount, ?_⟩
                subst h1
                refine ⟨rfl, rfl, rfl, Or.inr ⟨hc, disc, ?_, rfl, ?_⟩⟩
                · rw [hvevs]
                · rw [← h2, hvevs]
                  rfl

/-! ## Claim theorems -/

theorem ite_neg_eq_max (x : ℚ) : (if x < 0 then (0 : ℚ) else x) = max x 0 := by
  split
  · rw [max_eq_right (by linarith)]
  · rw [max_eq_left (by linarith)]

/-- C1, counterexample: for the 50%-off rule with `max_discount = 1` and a
single 10.00 item, `Apply` returns amount 5, strictly above the positive
`max_discount`; no clamping happens. -/
theorem c1_counterexample :
    Coupon.Apply
      { code := "FIFTYOFF", discountType := "percentage", value := 50,
        minItems := 0, description := "50% off entire order",
        maxDiscount := 1 }
      [{ productID := "p1", price := 10, quantity := 1 }]
      = .ok { amount := 5, description := "50% off entire order" } ∧
    (0 : ℚ) < 1 ∧ (1 : ℚ) < 5 := by
  refine ⟨?_, by norm_num, by norm_num⟩
  have hsub : Coupon.calcSubtotal
      [{ productID := "p1", price := 10, quantity := 1 }] = 10 := by
    norm_num [Coupon.calcSubtotal]
  simp only [Coupon.Apply, Coupon.totalQuantity, Coupon.applyPercentage, hsub]
  norm_num [Coupon.floorAtZero, divByHundred, roundDp]

/-- C1, amended: `Apply` never reads `max_discount` — its result is
identical for every value of the field, so the returned amount is the
kind-specific amount after floor-at-zero and 2-dp rounding only, with no
clamping to `max_discount`. -/
theorem c1_apply_ignores_max_discount (rule : Coupon.Rule)
    (items : List Item) (md : ℚ) :
    Coupon.Apply { rule with maxDiscount := md } items
      = Coupon.Apply rule items := rfl

/-- C2: with the seeded HAPPYHRS row, `FindByCode` resolves the
lower-cased code `happyhrs` (its `WHERE UPPER(code) = UPPER($1)` is
case-insensitive) but `IncrementUses` with the very same string updates no
row (`WHERE code = $1` is case-sensitive), leaving the table unchanged —
while the exact-case code does increment. -/
theorem c2_increment_misses_case_variant :
    (∃ rule, Repo.findByCode happyHrsTable "happyhrs" = .ok rule) ∧
    Repo.incrementUses happyHrsTable "happyhrs" = happyHrsTable ∧
    Repo.incrementUses happyHrsTable "HAPPYHRS" ≠ happyHrsTable := by
  refine ⟨⟨Repo.scanCouponRule
    { code := "HAPPYHRS", discountType := "percentage", value := 18,
      minItems := 0, description := "Happy Hours: 18% off", active := true,
      validFrom := none, validUntil := none, maxUses := 0, uses := 0,
      maxDiscount := 0 }, ?_⟩, ?_, ?_⟩
  · simp [Repo.findByCode, happyHrsTable, Repo.upperStr]
  · simp [Repo.incrementUses, happyHrsTable]
  · simp [Repo.incrementUses, happyHrsTable]

/-- C3: every successful `PlaceOrder` stores
`total = round2(max(subtotal − discount, 0))` and
`discounts = round2(discount)`, where the discount is the coupon
validator's amount (zero when no code was supplied); hence `total ≥ 0` and
`total ≤ round2(subtotal)`. -/
theorem c3_place_order_total {store : String → Option OrderSvc.Product}
    {findResult : Except CouponErr Coupon.Rule} {now : ℤ}
    {incOk createOk : Bool} {newID : String}
    {req : OrderSvc.PlaceOrderRequest} {res : OrderSvc.PlaceOrderResult}
    {evs : List StoreEvent}
    (hstore : ∀ pid p, store pid = some p → 0 ≤ p.price)
    (h : OrderSvc.placeOrder store findResult now incOk createOk newID req
      = (.ok res, evs)) :
    ∃ d : ℚ, 0 ≤ d ∧
      res.order.total
        = roundDp 2 (max (OrderSvc.orderSubtotal store req.items - d) 0) ∧
      res.order.discounts = roundDp 2 d ∧
      (req.couponCode = "" ∧ d = 0 ∨
        ∃ disc evs', Coupon.validate findResult incOk now req.couponCode
            (req.items.map (OrderSvc.toCouponItem store)) = (.ok disc, evs')
          ∧ d = disc.amount) ∧
      0 ≤ res.order.total ∧
      res.order.total ≤ roundDp 2 (OrderSvc.orderSubtotal store req.items) := by
  obtain ⟨hne, hbad, hmiss, hcreate, d, htotal, hdisc, hid, hcases⟩ :=
    placeOrder_ok_inv h
  have hd : 0 ≤ d := by
    rcases hcases with ⟨hc, hd0, _⟩ | ⟨hc, disc, hv, hd', _⟩
    · rw [hd0]
    · rcases validate_ok_inv hv with ⟨_, rule, _, ha⟩
      rw [hd']
      exact Apply_amount_nonneg ha
  have hsub : 0 ≤ OrderSvc.orderSubtotal store req.items :=
    orderSubtotal_nonneg hstore (firstBadQuantity_none_inv hbad)
  have htotal' : res.order.total
      = roundDp 2 (max (OrderSvc.orderSubtotal store req.items - d) 0) := by
    rw [htotal, ite_neg_eq_max]
  refine ⟨d, hd, htotal', hdisc, ?_, ?_, ?_⟩
  · rcases hcases with ⟨hc, hd0, _⟩ | ⟨hc, disc, hv, hd', _⟩
    · exact Or.inl ⟨hc, hd0⟩
    · exact Or.inr ⟨disc, _, hv, hd'⟩
  · rw [htotal']
    exact roundDp_nonneg 2 (le_max_right _ 0)
  · rw [htotal']
    apply roundDp_mono
    apply max_le (by linarith) hsub

/-- C3 witness: a one-item order at price 6.50 without coupon succeeds,
and the totals bound of `c3_place_order_total` holds for it. -/
theorem c3_witness :
    OrderSvc.placeOrder
        (fun _ => some { id := "1", name := "Waffle", price := 13 / 2 })
        (.error .invalidCoupon) 0 true true "ord-1"
        { items := [{ productID := "1", quantity := 1 }], couponCode := "" }
      = (.ok { order := { id := "ord-1",
                          items := [{ productID := "1", quantity := 1 }],
                          total := 13 / 2, discounts := 0, couponCode := "" },
               products := [{ id := "1", name := "Waffle", price := 13 / 2 }] },
         [.createOrder "ord-1"]) ∧
    ∃ d : ℚ, 0 ≤ d ∧
      (13 / 2 : ℚ) = roundDp 2 (max
        (OrderSvc.orderSubtotal
          (fun _ => some { id := "1", name := "Waffle", price := 13 / 2 })
          [{ productID := "1", quantity := 1 }] - d) 0) := by
  have hstore : ∀ (pid : String) (p : OrderSvc.Product),
      (some { id := "1", name := "Waffle", price := 13 / 2 }
        : Option OrderSvc.Product) = some p → 0 ≤ p.price := by
    intro pid p hp
    simp only [Option.some.injEq] at hp
    rw [← hp]
    norm_num
  have h : OrderSvc.placeOrder
      (fun _ => some { id := "1", name := "Waffle", price := 13 / 2 })
      (.error .invalidCoupon) 0 true true "ord-1"
      { items := [{ productID := "1", quantity := 1 }], couponCode := "" }
      = (.ok { order := { id := "ord-1",
                          items := [{ productID := "1", quantity := 1 }],
                          total := 13 / 2, discounts := 0, couponCode := "" },
               products := [{ id := "1", name := "Waffle", price := 13 / 2 }] },
         [.createOrder "ord-1"]) := by
    simp only [OrderSvc.placeOrder, OrderSvc.firstBadQuantity,
      OrderSvc.firstMissing, OrderSvc.orderSubtotal, OrderSvc.toCouponItem,
      OrderSvc.priceOf, List.map, List.foldl, List.filterMap]
    norm_num [roundDp]
  obtain ⟨d, hd, htot, -, -, -, -⟩ := c3_place_order_total hstore h
  exact ⟨h, d, hd, htot⟩

/-- Helper: `Apply` when the minimum-item gate fires. -/
theorem Apply_min_items {rule : Coupon.Rule} {items : List Item}
    (hmin : rule.minItems > 0 ∧ Coupon.totalQuantity items < rule.minItems) :
    Coupon.Apply rule items = .error .invalidCoupon := by
  unfold Coupon.Apply
  rw [if_pos hmin]

/-- C4: for a found rule, `Validate` fails with `CouponExpired` exactly
when the temporal gate fires; with the temporal gate passing, it fails with
`CouponUsageLimitReached` exactly when `max_uses > 0 ∧ uses ≥ max_uses`;
with both gates passing, a cart whose total quantity is below `min_items`
fails with `InvalidCoupon`; and a discount is returned only when every gate
passed and `Apply` computed it. -/
theorem c4_validate_gates (rule : Coupon.Rule) (incOk : Bool) (now : ℤ)
    (code : String) (items : List Item)
    (h0 : 0 ≤ Coupon.totalQuantity items) :
    ((Coupon.validate (.ok rule) incOk now code items).1
        = .error .couponExpired ↔
      (Coupon.beforeValidFrom rule now || Coupon.afterValidUntil rule now)
        = true) ∧
    ((Coupon.beforeValidFrom rule now || Coupon.afterValidUntil rule now)
        = false →
      ((Coupon.validate (.ok rule) incOk now code items).1
          = .error .usageLimitReached ↔
        rule.maxUses > 0 ∧ rule.uses ≥ rule.maxUses)) ∧
    ((Coupon.beforeValidFrom rule now || Coupon.afterValidUntil rule now)
        = false →
      ¬(rule.maxUses > 0 ∧ rule.uses ≥ rule.maxUses) →
      Coupon.totalQuantity items < rule.minItems →
      (Coupon.validate (.ok rule) incOk now code items).1
        = .error .invalidCoupon) ∧
    (∀ d, (Coupon.validate (.ok rule) incOk now code items).1 = .ok d →
      (Coupon.beforeValidFrom rule now || Coupon.afterValidUntil rule now)
        = false ∧
      ¬(rule.maxUses > 0 ∧ rule.uses ≥ rule.maxUses) ∧
      ¬(rule.minItems > 0 ∧ Coupon.totalQuantity items < rule.minItems) ∧
      Coupon.Apply rule items = .ok d) := by
  cases hb : (Coupon.beforeValidFrom rule now ||
      Coupon.afterValidUntil rule now) with
  | true =>
    rw [validate_expired hb]
    refine ⟨by simp, by simp, by simp, ?_⟩
    intro d hd
    exact absurd hd (by simp)
  | false =>
    by_cases hu : rule.maxUses > 0 ∧ rule.uses ≥ rule.maxUses
    · rw [validate_usage hb hu]
      refine ⟨by simp, fun _ => by simpa using hu, fun _ hu' => absurd hu hu',
        ?_⟩
      intro d hd
      exact absurd hd (by simp)
    · cases ha : Coupon.Apply rule items with
      | error e =>
        rw [validate_apply_error hb hu ha]
        rcases Apply_error_cases ha with rfl | ⟨t, rfl⟩
        · refine ⟨by simp, fun _ => by simpa using hu, fun _ _ _ => rfl, ?_⟩
          intro d hd
          exact absurd hd (by simp)
        · refine ⟨by simp, fun _ => by simpa using hu, ?_, ?_⟩
          · intro _ _ hlt
            have hmin : rule.minItems > 0 ∧
                Coupon.totalQuantity items < rule.minItems :=
              ⟨lt_of_le_of_lt h0 hlt, hlt⟩
            rw [Apply_min_items hmin] at ha
            exact absurd ha (by simp)
          · intro d hd
            exact absurd hd (by simp)
      | ok d' =>
        have hmin : ¬(rule.minItems > 0 ∧
            Coupon.totalQuantity items < rule.minItems) := by
          intro hmin
          rw [Apply_min_items hmin] at ha
          exact absurd ha (by simp)
        have hlt : ¬Coupon.totalQuantity items < rule.minItems := by
          intro hlt
          exact hmin ⟨lt_of_le_of_lt h0 hlt, hlt⟩
        cases incOk with
        | true =>
          rw [validate_apply_ok hb hu ha]
          refine ⟨by simp, fun _ => by simpa using hu, fun _ _ h => absurd h hlt,
            ?_⟩
          intro d hd
          simp only [Except.ok.injEq] at hd
          exact ⟨rfl, hu, hmin, by rw [hd]⟩
        | false =>
          rw [validate_increment_fail hb hu ha]
          refine ⟨by simp, fun _ => by simpa using hu, fun _ _ h => absurd h hlt,
            ?_⟩
          intro d hd
          exact absurd hd (by simp)

/-- C4 witness: an in-window percentage rule applied to one unit-quantity
item passes all gates; the same computation on an expired rule fails. -/
theorem c4_witness :
    (0 : ℤ) ≤ Coupon.totalQuantity
      [{ productID := "p1", price := 10, quantity := 1 }] ∧
    ((Coupon.validate
        (.ok { code := "SAVE10", discountType := "percentage", value := 10,
               minItems := 0, description := "10% off", validFrom := some 0,
               validUntil := some 100, maxUses := 0, uses := 0,
               maxDiscount := 0 })
        true 50 "SAVE10"
        [{ productID := "p1", price := 10, quantity := 1 }]).1
      = .error .couponExpired ↔
      (Coupon.beforeValidFrom
          { code := "SAVE10", discountType := "percentage", value := 10,
            minItems := 0, description := "10% off", validFrom := some 0,
            validUntil := some 100, maxUses := 0, uses := 0,
            maxDiscount := 0 } 50 ||
        Coupon.afterValidUntil
          { code := "SAVE10", discountType := "percentage", value := 10,
            minItems := 0, description := "10% off", validFrom := some 0,
            validUntil := some 100, maxUses := 0, uses := 0,
            maxDiscount := 0 } 50) = true) := by
  refine ⟨by norm_num [Coupon.totalQuantity], ?_⟩
  exact (c4_validate_gates _ true 50 "SAVE10" _
    (by norm_num [Coupon.totalQuantity])).1

/-- C5: `PlaceOrder` rejects an empty request with `EmptyItems`; any
request containing a non-positive quantity with
`InvalidQuantity(product_id)` naming an offending item; any request (with
valid quantities) containing an unknown product id with
`ProductNotFound(product_id)` naming a missing item.  In each case no store
mutation is issued, so no order is persisted and no counter changes. -/
theorem c5_place_order_validation (store : String → Option OrderSvc.Product)
    (findResult : Except CouponErr Coupon.Rule) (now : ℤ)
    (incOk createOk : Bool) (newID : String)
    (req : OrderSvc.PlaceOrderRequest) :
    (req.items = [] →
      OrderSvc.placeOrder store findResult now incOk createOk newID req
        = (.error .emptyItems, [])) ∧
    ((∃ i ∈ req.items, i.quantity ≤ 0) →
      ∃ pid, (∃ i ∈ req.items, i.productID = pid ∧ i.quantity ≤ 0) ∧
        OrderSvc.placeOrder store findResult now incOk createOk newID req
          = (.error (.invalidQuantity pid), [])) ∧
    ((∀ i ∈ req.items, 0 < i.quantity) →
      (∃ i ∈ req.items, store i.productID = none) →
      ∃ pid, (∃ i ∈ req.items, i.productID = pid ∧ store pid = none) ∧
        OrderSvc.placeOrder store findResult now incOk createOk newID req
          = (.error (.productNotFound pid), [])) := by
  refine ⟨?_, ?_, ?_⟩
  · intro he
    unfold OrderSvc.placeOrder
    rw [if_pos he]
  · intro hex
    have hne : req.items ≠ [] := by
      rcases hex with ⟨i, hi, _⟩
      intro he
      rw [he] at hi
      exact absurd hi (List.not_mem_nil i)
    rcases firstBadQuantity_some_of hex with ⟨pid, hfst, hwit⟩
    refine ⟨pid, hwit, ?_⟩
    unfold OrderSvc.placeOrder
    rw [if_neg hne, hfst]
  · intro hqty hex
    have hne : req.items ≠ [] := by
      rcases hex with ⟨i, hi, _⟩
      intro he
      rw [he] at hi
      exact absurd hi (List.not_mem_nil i)
    rcases firstMissing_some_of hex with ⟨pid, hfst, hwit⟩
    refine ⟨pid, hwit, ?_⟩
    unfold OrderSvc.placeOrder
    rw [if_neg hne, firstBadQuantity_none hqty, hfst]

/-- C5 witness: the three rejection branches observed on concrete
requests against a one-product store. -/
theorem c5_witness :
    OrderSvc.placeOrder
        (fun pid => if pid = "1"
          then some { id := "1", name := "Waffle", price := 13 / 2 }
          else none)
        (.error .invalidCoupon) 0 true true "ord-2"
        { items := [], couponCode := "" }
      = (.error .emptyItems, []) ∧
    (∃ pid,
      (∃ i ∈ [({ productID := "1", quantity := 0 } : OrderSvc.OrderItem)],
        i.productID = pid ∧ i.quantity ≤ 0) ∧
      OrderSvc.placeOrder
          (fun pid => if pid = "1"
            then some { id := "1", name := "Waffle", price := 13 / 2 }
            else none)
          (.error .invalidCoupon) 0 true true "ord-2"
          { items := [{ productID := "1", quantity := 0 }], couponCode := "" }
        = (.error (.invalidQuantity pid), [])) ∧
    (∃ pid,
      (∃ i ∈ [({ productID := "9", quantity := 1 } : OrderSvc.OrderItem)],
        i.productID = pid ∧
          (fun pid => if pid = "1"
            then some { id := "1", name := "Waffle", price := 13 / 2 }
            else (none : Option OrderSvc.Product)) pid = none) ∧
      OrderSvc.placeOrder
          (fun pid => if pid = "1"
            then some { id := "1", name := "Waffle", price := 13 / 2 }
            else none)
          (.error .invalidCoupon) 0 true true "ord-2"
          { items := [{ productID := "9", quantity := 1 }], couponCode := "" }
        = (.error (.productNotFound pid), [])) := by
  refine ⟨?_, ?_, ?_⟩
  · exact (c5_place_order_validation _ (.error .invalidCoupon) 0 true true
      "ord-2" { items := [], couponCode := "" }).1 rfl
  · exact (c5_place_order_validation _ (.error .invalidCoupon) 0 true true
      "ord-2" { items := [{ productID := "1", quantity := 0 }],
                couponCode := "" }).2.1
      ⟨_, List.mem_singleton.mpr rfl, by norm_num⟩
  · exact (c5_place_order_validation _ (.error .invalidCoupon) 0 true true
      "ord-2" { items := [{ productID := "9", quantity := 1 }],
                couponCode := "" }).2.2
      (by intro i hi; rw [List.mem_singleton.mp hi]; norm_num)
      ⟨_, List.mem_singleton.mpr rfl, by decide⟩

/-- Helper: when the coupon validator fails without issuing events,
`PlaceOrder` fails and issues no events either (whatever the earlier
validation outcome). -/
theorem placeOrder_coupon_fail {store : String → Option OrderSvc.Product}
    {findResult : Except CouponErr Coupon.Rule} {now : ℤ}
    {incOk createOk : Bool} {newID : String}
    {req : OrderSvc.PlaceOrderRequest} {e : CouponErr}
    (hcode : req.couponCode ≠ "")
    (hv : Coupon.validate findResult incOk now req.couponCode
        (req.items.map (OrderSvc.toCouponItem store)) = (.error e, [])) :
    ∃ err, OrderSvc.placeOrder store findResult now incOk createOk newID req
      = (.error err, []) := by
  unfold OrderSvc.placeOrder
  by_cases hne : req.items = []
  · rw [if_pos hne]
    exact ⟨.emptyItems, rfl⟩
  · rw [if_neg hne]
    cases hbad : OrderSvc.firstBadQuantity req.items with
    | some pid => exact ⟨.invalidQuantity pid, rfl⟩
    | none =>
      cases hmiss : OrderSvc.firstMissing store req.items with
      | some pid => exact ⟨.productNotFound pid, rfl⟩
      | none =>
        refine ⟨.couponErr e, ?_⟩
        simp only [hcode, ne_eq, not_false_eq_true, if_true, ite_true, hv]

/-- C6: with a coupon code present, a successful `PlaceOrder` issues
exactly one `IncrementUses`, after the gates and calculation succeeded and
strictly before the order `Create`; when the lookup, a gate or the
calculation fails, no event at all is issued, so the uses counter is
untouched. -/
theorem c6_increment_once (store : String → Option OrderSvc.Product)
    (findResult : Except CouponErr Coupon.Rule) (now : ℤ)
    (incOk createOk : Bool) (newID : String)
    (req : OrderSvc.PlaceOrderRequest)
    (hcode : req.couponCode ≠ "") :
    (∀ res evs,
      OrderSvc.placeOrder store findResult now incOk createOk newID req
        = (.ok res, evs) →
      evs = [.incrementUses req.couponCode, .createOrder newID]) ∧
    (∀ rule, findResult = .ok rule →
      ((Coupon.beforeValidFrom rule now || Coupon.afterValidUntil rule now)
          = true ∨
        (rule.maxUses > 0 ∧ rule.uses ≥ rule.maxUses) ∨
        (∃ e, Coupon.Apply rule (req.items.map (OrderSvc.toCouponItem store))
          = .error e)) →
      ∃ err, OrderSvc.placeOrder store findResult now incOk createOk newID req
        = (.error err, [])) ∧
    (∀ e, findResult = .error e →
      ∃ err, OrderSvc.placeOrder store findResult now incOk createOk newID req
        = (.error err, [])) := by
  refine ⟨?_, ?_, ?_⟩
  · intro res evs h
    obtain ⟨-, -, -, -, d, -, -, -, hcases⟩ := placeOrder_ok_inv h
    rcases hcases with ⟨hc, -, -⟩ | ⟨-, disc, -, -, hevs⟩
    · exact absurd hc hcode
    · exact hevs
  · intro rule hfr hgate
    subst hfr
    rcases hgate with hb | hrest
    · exact placeOrder_coupon_fail hcode (validate_expired hb)
    · cases hb : (Coupon.beforeValidFrom rule now ||
          Coupon.afterValidUntil rule now) with
      | true => exact placeOrder_coupon_fail hcode (validate_expired hb)
      | false =>
        rcases hrest with hu | ⟨e, ha⟩
        · exact placeOrder_coupon_fail hcode (validate_usage hb hu)
        · by_cases hu : rule.maxUses > 0 ∧ rule.uses ≥ rule.maxUses
          · exact placeOrder_coupon_fail hcode (validate_usage hb hu)
          · exact placeOrder_coupon_fail hcode (validate_apply_error hb hu ha)
  · intro e hfr
    subst hfr
    exact placeOrder_coupon_fail hcode validate_lookup_fail

/-- C6 witness: a usage-capped coupon (`uses = max_uses`) on a one-item
request fails with no store event issued. -/
theorem c6_witness :
    ∃ err, OrderSvc.placeOrder
        (fun _ => some { id := "1", name := "Waffle", price := 13 / 2 })
        (.ok { code := "LIMITED", discountType := "percentage", value := 10,
               minItems := 0, description := "limited", validFrom := none,
               validUntil := none, maxUses := 100, uses := 100,
               maxDiscount := 0 })
        0 true true "ord-3"
        { items := [{ productID := "1", quantity := 1 }],
          couponCode := "LIMITED" }
      = (.error err, []) := by
  refine (c6_increment_once _ _ 0 true true "ord-3"
    { items := [{ productID := "1", quantity := 1 }],
      couponCode := "LIMITED" } (by decide)).2.1 _ rfl ?_
  right
  left
  refine ⟨by norm_num, by norm_num⟩

/-! ## Pipeline lemmas -/

/-- The merged mask is the sum of the three per-file bits. -/
theorem mergedMask_eq (filters : Fin 3 → String → Bool)
    (files : Fin 3 → List String) (code : String) :
    Pipeline.mergedMask filters files code =
      (if code ∈ Pipeline.candidateSet filters 0 (files 0) then 1 else 0) +
      (if code ∈ Pipeline.candidateSet filters 1 (files 1) then 2 else 0) +
      (if code ∈ Pipeline.candidateSet filters 2 (files 2) then 4 else 0) := by
  have hfr : (List.finRange 3) = [0, 1, 2] := rfl
  unfold Pipeline.mergedMask
  rw [hfr]
  simp only [List.foldl]
  by_cases h0 : code ∈ Pipeline.candidateSet filters 0 (files 0) <;>
    by_cases h1 : code ∈ Pipeline.candidateSet filters 1 (files 1) <;>
      by_cases h2 : code ∈ Pipeline.candidateSet filters 2 (files 2) <;>
        simp [h0, h1, h2]

/-- At least two of the three bits are set when the popcount of the summed
mask reaches 2. -/
theorem popCount_three_masks (b0 b1 b2 : Prop)
    [Decidable b0] [Decidable b1] [Decidable b2]
    (h : 2 ≤ Pipeline.popCount
      ((if b0 then 1 else 0) + (if b1 then 2 else 0) + (if b2 then 4 else 0))) :
    (b0 ∧ b1) ∨ (b0 ∧ b2) ∨ (b1 ∧ b2) := by
  have p0 : Pipeline.popCount 0 = 0 := rfl
  have p1 : Pipeline.popCount 1 = 1 := rfl
  have p2 : Pipeline.popCount 2 = 1 := rfl
  have p3 : Pipeline.popCount 3 = 2 := rfl
  have p4 : Pipeline.popCount 4 = 1 := rfl
  have p5 : Pipeline.popCount 5 = 2 := rfl
  have p6 : Pipeline.popCount 6 = 2 := rfl
  have p7 : Pipeline.popCount 7 = 3 := rfl
  by_cases h0 : b0 <;> by_cases h1 : b1 <;> by_cases h2 : b2 <;>
    simp only [h0, h1, h2, if_true, if_false, ite_true, ite_false] at h <;>
      norm_num [p0, p1, p2, p3, p4, p5, p6, p7] at h <;>
        tauto

/-- Membership in a pass-2 candidate map means: the token is a line of that
file, it qualifies by length, and some other filter reported it. -/
theorem candidateSet_mem {filters : Fin 3 → String → Bool} {idx : Fin 3}
    {lines : List String} {code : String}
    (h : code ∈ Pipeline.candidateSet filters idx lines) :
    code ∈ lines ∧ Pipeline.qualifies code = true := by
  have h' := List.mem_filter.mp h
  have h2 := h'.2
  simp only [Bool.and_eq_true] at h2
  exact ⟨h'.1, h2.1⟩

/-- The length gate, spelled out. -/
theorem qualifies_iff {code : String} :
    Pipeline.qualifies code = true ↔
      8 ≤ code.length ∧ code.length ≤ 10 := by
  simp [Pipeline.qualifies, Pipeline.minCodeLen, Pipeline.maxCodeLen]

/-- C7: every confirmed token has length within `[8, 10]` and occurs, as a
qualifying line, in at least two distinct files; tokens of length 7 or 11
are never confirmed, whatever the filters report. -/
theorem c7_pipeline_sound (filters : Fin 3 → String → Bool)
    (files : Fin 3 → List String) (code : String) :
    (Pipeline.confirmed filters files code = true →
      (8 ≤ code.length ∧ code.length ≤ 10) ∧
      ∃ i j : Fin 3, i ≠ j ∧ code ∈ files i ∧ code ∈ files j) ∧
    ((code.length = 7 ∨ code.length = 11) →
      Pipeline.confirmed filters files code = false) := by
  constructor
  · intro hconf
    have hc : 2 ≤ Pipeline.popCount
        (Pipeline.mergedMask filters files code) := by
      simpa [Pipeline.confirmed] using hconf
    rw [mergedMask_eq] at hc
    rcases popCount_three_masks _ _ _ hc with ⟨ha, hb⟩ | ⟨ha, hb⟩ | ⟨ha, hb⟩
    · exact ⟨qualifies_iff.mp (candidateSet_mem ha).2,
        0, 1, by decide, (candidateSet_mem ha).1, (candidateSet_mem hb).1⟩
    · exact ⟨qualifies_iff.mp (candidateSet_mem ha).2,
        0, 2, by decide, (candidateSet_mem ha).1, (candidateSet_mem hb).1⟩
    · exact ⟨qualifies_iff.mp (candidateSet_mem ha).2,
        1, 2, by decide, (candidateSet_mem ha).1, (candidateSet_mem hb).1⟩
  · intro hlen
    have hnot : ∀ i : Fin 3,
        code ∉ Pipeline.candidateSet filters i (files i) := by
      intro i hmem
      have hq := qualifies_iff.mp (candidateSet_mem hmem).2
      rcases hlen with h7 | h11 <;> omega
    have hmask : Pipeline.mergedMask filters files code = 0 := by
      rw [mergedMask_eq]
      simp [hnot 0, hnot 1, hnot 2]
    simp only [Pipeline.confirmed, hmask]
    decide

/-- C7 witness: `AAAAAAAA` (length 8, reported by every filter, present in
both files 0 and 1) is confirmed-sound, and the length-7 token `AAAAAAA`
is never confirmed even when present in all three files. -/
theorem c7_witness :
    ((8 ≤ ("AAAAAAAA" : String).length ∧ ("AAAAAAAA" : String).length ≤ 10) ∧
      ∃ i j : Fin 3, i ≠ j ∧ "AAAAAAAA" ∈ ["AAAAAAAA"] ∧
        "AAAAAAAA" ∈ ["AAAAAAAA"]) ∧
    Pipeline.confirmed (fun _ _ => true) (fun _ => ["AAAAAAA"]) "AAAAAAA"
      = false := by
  constructor
  · refine ((c7_pipeline_sound (fun _ _ => true) (fun _ => ["AAAAAAAA"])
      "AAAAAAAA").1 ?_).imp id ?_
    · decide
    · intro ⟨i, j, hij, hi, hj⟩
      exact ⟨i, j, hij, hi, hj⟩
  · exact (c7_pipeline_sound (fun _ _ => true) (fun _ => ["AAAAAAA"])
      "AAAAAAA").2 (Or.inl (by decide))

/-- C8, counterexample: a fixed $9 rule on a cart whose subtotal is 0.006
yields discount `round2(0.006) = 0.01`, which exceeds the subtotal — the
cap `min(value, subtotal)` is applied before rounding, and rounding can
push the amount above a subtotal that is not a whole number of cents. -/
theorem c8_counterexample :
    Coupon.Apply
      { code := "OVER9000", discountType := "fixed", value := 9,
        minItems := 0, description := "$9 off your order" }
      [{ productID := "p5", price := 3 / 500, quantity := 1 }]
      = .ok { amount := 1 / 100, description := "$9 off your order" } ∧
    Coupon.calcSubtotal
      [{ productID := "p5", price := 3 / 500, quantity := 1 }] < 1 / 100 := by
  constructor
  · have hsub : Coupon.calcSubtotal
        [{ productID := "p5", price := 3 / 500, quantity := 1 }]
        = 3 / 500 := by
      norm_num [Coupon.calcSubtotal]
    simp only [Coupon.Apply, Coupon.totalQuantity, Coupon.applyFixed, hsub]
    norm_num [Coupon.floorAtZero, roundDp, min_def]
  · norm_num [Coupon.calcSubtotal]

/-- C8, amended: for a fixed-kind rule with `value ≥ 0` on a cart with
non-negative subtotal that passes the minimum-item gate, the discount is
exactly `round2(min(value, subtotal))`; it never exceeds the subtotal
provided the subtotal is a whole number of cents (scale-2 prices) — for a
subtotal off the cent grid the rounding may exceed it by up to half a
cent. -/
theorem c8_fixed_discount (rule : Coupon.Rule) (items : List Item)
    (htype : rule.discountType = "fixed")
    (hval : 0 ≤ rule.value)
    (hsub : 0 ≤ Coupon.calcSubtotal items)
    (hgate : ¬(rule.minItems > 0 ∧
      Coupon.totalQuantity items < rule.minItems)) :
    Coupon.Apply rule items
      = .ok { amount := roundDp 2 (min rule.value (Coupon.calcSubtotal items))
              description := rule.description } ∧
    (∀ n : ℤ, Coupon.calcSubtotal items * 100 = n →
      roundDp 2 (min rule.value (Coupon.calcSubtotal items))
        ≤ Coupon.calcSubtotal items) := by
  have hmin : 0 ≤ min rule.value (Coupon.calcSubtotal items) :=
    le_min hval hsub
  constructor
  · unfold Coupon.Apply
    rw [if_neg hgate, htype]
    show Except.ok (Coupon.applyFixed rule (Coupon.calcSubtotal items)) = _
    unfold Coupon.applyFixed
    rw [floorAtZero_of_nonneg hmin]
  · intro n hn
    calc roundDp 2 (min rule.value (Coupon.calcSubtotal items))
        ≤ roundDp 2 (Coupon.calcSubtotal items) :=
          roundDp_mono 2 (min_le_right _ _)
      _ = Coupon.calcSubtotal items := roundDp_eq_self 2 hn

/-- C8 witness: the fixed $9 rule on a single $4.00 item gives discount
`round2(min(9, 4))` and stays below the subtotal. -/
theorem c8_witness :
    Coupon.Apply
      { code := "OVER9000", discountType := "fixed", value := 9,
        minItems := 0, description := "$9 off your order" }
      [{ productID := "5", price := 4, quantity := 1 }]
      = .ok { amount := roundDp 2 (min 9 (Coupon.calcSubtotal
                [{ productID := "5", price := 4, quantity := 1 }]))
              description := "$9 off your order" } ∧
    roundDp 2 (min 9 (Coupon.calcSubtotal
        [{ productID := "5", price := 4, quantity := 1 }]))
      ≤ Coupon.calcSubtotal
        [{ productID := "5", price := 4, quantity := 1 }] := by
  obtain ⟨h1, h2⟩ := c8_fixed_discount
    { code := "OVER9000", discountType := "fixed", value := 9,
      minItems := 0, description := "$9 off your order" }
    [{ productID := "5", price := 4, quantity := 1 }]
    rfl (by norm_num) (by norm_num [Coupon.calcSubtotal])
    (by norm_num)
  exact ⟨h1, h2 400 (by norm_num [Coupon.calcSubtotal])⟩

/-! ## Lowest-unit-price lemmas -/

theorem foldl_lowest_mem (l : List Item) (a : ℚ) :
    l.foldl (fun lowest item =>
      if item.price < lowest then item.price else lowest) a = a ∨
    l.foldl (fun lowest item =>
      if item.price < lowest then item.price else lowest) a
      ∈ l.map Item.price := by
  induction l generalizing a with
  | nil => exact Or.inl rfl
  | cons x xs ih =>
    simp only [List.foldl, List.map]
    by_cases hx : x.price < a
    · rw [if_pos hx]
      rcases ih x.price with h | h
      · exact Or.inr (by rw [h]; exact List.mem_cons_self _ _)
      · exact Or.inr (List.mem_cons_of_mem _ h)
    · rw [if_neg hx]
      rcases ih a with h | h
      · exact Or.inl h
      · exact Or.inr (List.mem_cons_of_mem _ h)

theorem foldl_lowest_le (l : List Item) (a : ℚ) :
    l.foldl (fun lowest item =>
      if item.price < lowest then item.price else lowest) a ≤ a ∧
    ∀ i ∈ l, l.foldl (fun lowest item =>
      if item.price < lowest then item.price else lowest) a ≤ i.price := by
  induction l generalizing a with
  | nil =>
    refine ⟨le_rfl, ?_⟩
    intro i hi
    exact absurd hi (List.not_mem_nil i)
  | cons x xs ih =>
    simp only [List.foldl]
    by_cases hx : x.price < a
    · rw [if_pos hx]
      obtain ⟨h1, h2⟩ := ih x.price
      refine ⟨le_trans h1 (le_of_lt hx), ?_⟩
      intro i hi
      rcases List.mem_cons.mp hi with rfl | hi'
      · exact h1
      · exact h2 i hi'
    · rw [if_neg hx]
      obtain ⟨h1, h2⟩ := ih a
      refine ⟨h1, ?_⟩
      intro i hi
      rcases List.mem_cons.mp hi with rfl | hi'
      · exact le_trans h1 (not_lt.mp hx)
      · exact h2 i hi'

/-- `findLowestUnitPrice` returns the minimum unit price of a non-empty
cart: it is one of the unit prices and bounds them all from below. -/
theorem findLowestUnitPrice_spec (items : List Item) (hne : items ≠ []) :
    Coupon.findLowestUnitPrice items ∈ items.map Item.price ∧
    ∀ i ∈ items, Coupon.findLowestUnitPrice items ≤ i.price := by
  match items with
  | [] => exact absurd rfl hne
  | first :: rest =>
    have he : Coupon.findLowestUnitPrice (first :: rest)
        = rest.foldl (fun lowest item =>
            if item.price < lowest then item.price else lowest)
          first.price := rfl
    rw [he]
    constructor
    · rcases foldl_lowest_mem rest first.price with h | h
      · rw [h]
        exact List.mem_cons_self _ _
      · exact List.mem_cons_of_mem _ h
    · intro i hi
      obtain ⟨h1, h2⟩ := foldl_lowest_le rest first.price
      rcases List.mem_cons.mp hi with rfl | hi'
      · exact h1
      · exact h2 i hi'

/-- C9: for a non-empty cart with non-negative unit prices, the
`free_lowest` discount equals the minimum unit price (not a line total)
rounded to 2 decimal places; for an empty cart it is zero. -/
theorem c9_free_lowest (rule : Coupon.Rule) (items : List Item)
    (hne : items ≠ []) (hp : ∀ i ∈ items, 0 ≤ i.price) :
    (∃ m, m ∈ items.map Item.price ∧
      (∀ p ∈ items.map Item.price, m ≤ p) ∧
      (Coupon.applyFreeLowest rule items).amount = roundDp 2 m) ∧
    (Coupon.applyFreeLowest rule []).amount = 0 := by
  constructor
  · obtain ⟨hmem, hle⟩ := findLowestUnitPrice_spec items hne
    refine ⟨Coupon.findLowestUnitPrice items, hmem, ?_, ?_⟩
    · intro p hp'
      rcases List.mem_map.mp hp' with ⟨i, hi, rfl⟩
      exact hle i hi
    · have hm : 0 ≤ Coupon.findLowestUnitPrice items := by
        rcases List.mem_map.mp hmem with ⟨i, hi, he⟩
        rw [← he]
        exact hp i hi
      unfold Coupon.applyFreeLowest
      rw [floorAtZero_of_nonneg hm]
  · show roundDp 2 (Coupon.floorAtZero (Coupon.findLowestUnitPrice [])) = 0
    rw [show Coupon.findLowestUnitPrice [] = 0 from rfl,
      floorAtZero_of_nonneg le_rfl, roundDp_zero]

/-- C9 witness: on the two-item cart (6.50 and 4.00) the free-lowest
discount is `round2(4)` with 4 the minimum unit price. -/
theorem c9_witness :
    ∃ m, m ∈ ([{ productID := "1", price := 13 / 2, quantity := 1 },
               { productID := "5", price := 4, quantity := 1 }]
        : List Item).map Item.price ∧
      (∀ p ∈ ([{ productID := "1", price := 13 / 2, quantity := 1 },
               { productID := "5", price := 4, quantity := 1 }]
          : List Item).map Item.price, m ≤ p) ∧
      (Coupon.applyFreeLowest
        { code := "BIRTHDAY", discountType := "free_lowest", value := 0,
          minItems := 0, description := "Birthday: free lowest item" }
        [{ productID := "1", price := 13 / 2, quantity := 1 },
         { productID := "5", price := 4, quantity := 1 }]).amount
        = roundDp 2 m := by
  refine (c9_free_lowest
    { code := "BIRTHDAY", discountType := "free_lowest", value := 0,
      minItems := 0, description := "Birthday: free lowest item" }
    [{ productID := "1", price := 13 / 2, quantity := 1 },
     { productID := "5", price := 4, quantity := 1 }]
    (by simp) ?_).1
  intro i hi
  rcases List.mem_cons.mp hi with rfl | hi'
  · norm_num
  · rw [List.mem_singleton.mp hi']
    norm_num

/-- The legacy `Apply` fails only with `invalidCoupon` or
`unsupportedType`. -/
theorem simpleApply_error_cases {rule : SimpleCoupon.Rule}
    {items : List Item} {e : CouponErr}
    (h : SimpleCoupon.Apply rule items = .error e) :
    e = .invalidCoupon ∨ ∃ t, e = .unsupportedType t := by
  unfold SimpleCoupon.Apply at h
  split at h
  · left; injection h with h; exact h.symm
  · split at h
    · exact absurd h (by simp)
    · exact absurd h (by simp)
    · exact absurd h (by simp)
    · right; injection h with h; exact ⟨_, h.symm⟩

/-- The lookup-error wrapper only produces `invalidCoupon` or a wrapped
repository error. -/
theorem wrapLookup_cases (e : CouponErr) :
    Coupon.wrapLookup e = .invalidCoupon ∨
      Coupon.wrapLookup e = .repoErr "lookup coupon" := by
  cases e <;> simp [Coupon.wrapLookup]

/-- C10: in the legacy `internal/coupon` path, the mapped rule is
independent of the row's temporal bounds, usage counters and discount cap
(the `Rule` type has no such fields); its `Validate` issues no store
mutation (in particular never `IncrementUses`), and the only errors it can
return are `InvalidCoupon`, the unsupported-type error or a wrapped
repository error — `CouponExpired` and `CouponUsageLimitReached` are
unreachable. -/
theorem c10_legacy_path (row : CouponRow) (a b : Option ℤ) (c d : ℤ)
    (e : ℚ) (findResult : Except CouponErr SimpleCoupon.Rule)
    (items : List Item) :
    SimpleCoupon.mapCouponRule
      { row with validFrom := a, validUntil := b, maxUses := c, uses := d,
                 maxDiscount := e }
      = SimpleCoupon.mapCouponRule row ∧
    (SimpleCoupon.validate findResult items).2 = [] ∧
    (∀ err, (SimpleCoupon.validate findResult items).1 = .error err →
      err = .invalidCoupon ∨ (∃ t, err = .unsupportedType t) ∨
        ∃ m, err = .repoErr m) ∧
    (SimpleCoupon.validate findResult items).1 ≠ .error .couponExpired ∧
    (SimpleCoupon.validate findResult items).1 ≠ .error .usageLimitReached := by
  refine ⟨rfl, ?_⟩
  cases findResult with
  | error e0 =>
    have hv : SimpleCoupon.validate (.error e0) items
        = (.error (Coupon.wrapLookup e0), []) := rfl
    rw [hv]
    refine ⟨rfl, ?_, ?_, ?_⟩
    · intro err herr
      simp only [Except.error.injEq] at herr
      rcases wrapLookup_cases e0 with hw | hw
      · exact Or.inl (by rw [← herr, hw])
      · exact Or.inr (Or.inr ⟨"lookup coupon", by rw [← herr, hw]⟩)
    · rcases wrapLookup_cases e0 with hw | hw <;> simp [hw]
    · rcases wrapLookup_cases e0 with hw | hw <;> simp [hw]
  | ok rule =>
    cases ha : SimpleCoupon.Apply rule items with
    | error e1 =>
      have hv : SimpleCoupon.validate (.ok rule) items = (.error e1, []) := by
        simp only [SimpleCoupon.validate]
        rw [ha]
      rw [hv]
      refine ⟨rfl, ?_, ?_, ?_⟩
      · intro err herr
        simp only [Except.error.injEq] at herr
        rcases simpleApply_error_cases ha with hw | ⟨t, hw⟩
        · exact Or.inl (herr ▸ hw)
        · exact Or.inr (Or.inl ⟨t, herr ▸ hw⟩)
      · rcases simpleApply_error_cases ha with hw | ⟨t, hw⟩ <;> simp [hw]
      · rcases simpleApply_error_cases ha with hw | ⟨t, hw⟩ <;> simp [hw]
    | ok d0 =>
      have hv : SimpleCoupon.validate (.ok rule) items = (.ok d0, []) := by
        simp only [SimpleCoupon.validate]
        rw [ha]
      rw [hv]
      refine ⟨rfl, ?_, by simp, by simp⟩
      intro err herr
      exact absurd herr (by simp)

/-- C10 witness: a fully-populated row maps to the same legacy rule as its
stripped version, and a concrete legacy validation issues no event and no
expiry error. -/
theorem c10_witness :
    SimpleCoupon.mapCouponRule
      { code := "GNULINUX", discountType := "percentage", value := 15,
        minItems := 0, description := "Open source discount: 15% off",
        active := true, validFrom := some 5, validUntil := some 9,
        maxUses := 3, uses := 3, maxDiscount := 7 }
      = SimpleCoupon.mapCouponRule
      { code := "GNULINUX", discountType := "percentage", value := 15,
        minItems := 0, description := "Open source discount: 15% off",
        active := true, validFrom := none, validUntil := none,
        maxUses := 0, uses := 0, maxDiscount := 0 } ∧
    (SimpleCoupon.validate
      (.ok { code := "GNULINUX", discountType := "percentage", value := 15,
             minItems := 0, description := "Open source discount: 15% off" })
      []).2 = [] ∧
    (SimpleCoupon.validate
      (.ok { code := "GNULINUX", discountType := "percentage", value := 15,
             minItems := 0, description := "Open source discount: 15% off" })
      []).1 ≠ .error .couponExpired := by
  obtain ⟨h1, h2, h3, h4, h5⟩ := c10_legacy_path
    { code := "GNULINUX", discountType := "percentage", value := 15,
      minItems := 0, description := "Open source discount: 15% off",
      active := true, validFrom := none, validUntil := none,
      maxUses := 0, uses := 0, maxDiscount := 0 }
    (some 5) (some 9) 3 3 7
    (.ok { code := "GNULINUX", discountType := "percentage", value := 15,
           minItems := 0, description := "Open source discount: 15% off" })
    []
  exact ⟨h1, h2, h4⟩
